import Mathlib

/-!
Verification development for the Marathon-QuickFilter scraper
(`src/scraper.py`).  The Python source is shallowly embedded: pure helper
functions become Lean functions, the fallible table extraction becomes a
function into `Except`, whose error constructors model the Python
exceptions (`IndexError`, `AttributeError`) that list indexing and
attribute access on `None` can raise, and the postback navigation becomes
a pure description of the HTTP requests it issues on the success path.
-/

namespace Marathon

/-! ## Python string primitives -/

/-- Models Python whitespace for `str.strip` and the regex class `\s`
(restricted to the ASCII whitespace characters, which are the only ones
occurring in the scraped pages). -/
def pyIsSpace (c : Char) : Bool :=
  c = ' ' || c = '\t' || c = '\n' || c = '\r' || c = '\x0b' || c = '\x0c'

/-- Models Python `str.strip()`: drop leading and trailing whitespace. -/
def pyStrip (s : String) : String :=
  (((s.toList.dropWhile pyIsSpace).reverse.dropWhile pyIsSpace).reverse).asString

/-- Numeric value of an ASCII digit character. -/
def digitVal (c : Char) : Nat := c.toNat - '0'.toNat

/-! ## Date parsing (`parse_event_date`, src/scraper.py lines 214-227) -/

/-- Models `re.match(r"^\s*(\d{4})", event_name)`: skip leading whitespace,
then require four digits, returning their value.  (`\s*` cannot backtrack
into a successful `\d` match since the classes are disjoint.) -/
def matchLeadingYear (name : String) : Option Nat :=
  match name.toList.dropWhile pyIsSpace with
  | c1 :: c2 :: c3 :: c4 :: _ =>
    if c1.isDigit && c2.isDigit && c3.isDigit && c4.isDigit then
      some (1000 * digitVal c1 + 100 * digitVal c2 + 10 * digitVal c3 + digitVal c4)
    else none
  | _ => none

/-- Second capture group of `re.match(r"(\d{1,2})/(\d{1,2})", s)`: one or
two digits, taken greedily. -/
def parseDay2 : List Char → Option Nat
  | c1 :: c2 :: _ =>
    if c1.isDigit then
      some (if c2.isDigit then 10 * digitVal c1 + digitVal c2 else digitVal c1)
    else none
  | [c1] => if c1.isDigit then some (digitVal c1) else none
  | [] => none

/-- Models `re.match(r"(\d{1,2})/(\d{1,2})", date_str)` with Python's
greedy-then-backtrack semantics for the first group: a two-digit month is
tried first and must be followed by a slash; otherwise a one-digit month
followed by a slash. -/
def matchMonthDay (cs : List Char) : Option (Nat × Nat) :=
  match cs with
  | c1 :: c2 :: c3 :: rest =>
    if c1.isDigit && c2.isDigit && c3 = '/' then
      (parseDay2 rest).map (fun d => (10 * digitVal c1 + digitVal c2, d))
    else if c1.isDigit && c2 = '/' then
      (parseDay2 (c3 :: rest)).map (fun d => (digitVal c1, d))
    else none
  | _ => none

/-- Gregorian leap-year rule used by Python `datetime`. -/
def isLeap (y : Nat) : Bool := y % 4 = 0 && (y % 100 ≠ 0 || y % 400 = 0)

/-- Days in a month, as Python `datetime` validates them. -/
def daysInMonth (y m : Nat) : Nat :=
  if m = 2 then (if isLeap y then 29 else 28)
  else if m = 4 ∨ m = 6 ∨ m = 9 ∨ m = 11 then 30
  else 31

/-- Validity condition of the `datetime(year, month, day)` constructor:
`ValueError` is raised exactly when this is false. -/
def isValidDate (y m d : Nat) : Bool :=
  decide (1 ≤ y) && decide (y ≤ 9999) && decide (1 ≤ m) && decide (m ≤ 12) &&
  decide (1 ≤ d) && decide (d ≤ daysInMonth y m)

/-- A calendar date as produced by `datetime(year, month, day)`. -/
structure PDate where
  year : Nat
  month : Nat
  day : Nat
deriving DecidableEq, Repr

/-- Embedding of `parse_event_date` (src/scraper.py lines 214-227): the
year is the 4-digit prefix of the event name, falling back to the current
year `nowYear` (`datetime.now().year`); the month/day come from the date
cell; `None` when the month/day regex fails or the combined date is
invalid (the `ValueError` of `datetime` is caught). -/
def parse_event_date (nowYear : Nat) (event_name date_str : String) : Option PDate :=
  let year_val := (matchLeadingYear event_name).getD nowYear
  match matchMonthDay date_str.toList with
  | none => none
  | some (m, d) => if isValidDate year_val m d then some ⟨year_val, m, d⟩ else none

/-! ## HTML page model

The parsed page (`BeautifulSoup` object) is modelled by the data the
extractor reads from it: tables, their rows (`tr` elements, flattened in
document order), the cells of each row tagged `th`/`td`, each cell's
extracted text (`get_text`) and the target of the first `<a href>` inside
it. -/

/-- One `th`/`td` cell: its tag kind, its `get_text` extraction and the
`href` of the first anchor inside it, when any. -/
structure Cell where
  isTh : Bool
  text : String
  href : Option String
deriving DecidableEq, Repr

/-- One `tr` element. -/
structure TRow where
  cells : List Cell
deriving DecidableEq, Repr

/-- One `table` element; `hasGridId` records whether its `id` attribute is
`ctl00_ContentPlaceHolder1_GridView1`. -/
structure HtmlTable where
  hasGridId : Bool
  rows : List TRow
deriving DecidableEq, Repr

/-- A page: its tables in document order. -/
structure Page where
  tables : List HtmlTable
deriving DecidableEq, Repr

/-- Python exceptions that `parse_table_to_df` can propagate. -/
inductive PyErr where
  | indexError
  | attributeError
deriving DecidableEq, Repr

/-- Texts of all `th` cells of a table (`tbl.find_all("th")` with
`get_text(strip=True)`). -/
def thTexts (t : HtmlTable) : List String :=
  ((t.rows.flatMap TRow.cells).filter Cell.isTh).map Cell.text

/-- Table location (src/scraper.py lines 161-167): first the table with
the GridView id, otherwise the first table whose `th` texts contain both
the event-name and the date labels. -/
def locateTable (p : Page) : Option HtmlTable :=
  match p.tables.find? (fun t => t.hasGridId) with
  | some t => some t
  | none =>
    p.tables.find? (fun t => decide ("賽事名稱" ∈ thTexts t ∧ "日期" ∈ thTexts t))

/-- `[i for i, h in enumerate(raw_headers) if h.strip() != ""]`, with `k`
the index of the first element of the remaining list. -/
def valid_indices_from (k : Nat) : List String → List Nat
  | [] => []
  | h :: t =>
    if pyStrip h ≠ "" then k :: valid_indices_from (k + 1) t
    else valid_indices_from (k + 1) t

/-- Python list indexing `l[i]`: `IndexError` when out of range. -/
def pyGet (l : List String) (i : Nat) : Except PyErr String :=
  if h : i < l.length then Except.ok (l.get ⟨i, h⟩) else Except.error PyErr.indexError

/-- Python list indexing on a list of naturals. -/
def pyGetNat (l : List Nat) (i : Nat) : Except PyErr Nat :=
  if h : i < l.length then Except.ok (l.get ⟨i, h⟩) else Except.error PyErr.indexError

/-- Python list indexing on a list of cells. -/
def pyGetCell (l : List Cell) (i : Nat) : Except PyErr Cell :=
  if h : i < l.length then Except.ok (l.get ⟨i, h⟩) else Except.error PyErr.indexError

/-- The comprehension `[texts[i] for i in indices]`: raises `IndexError`
as soon as an index is out of range. -/
def pyListComp (texts : List String) : List Nat → Except PyErr (List String)
  | [] => Except.ok []
  | i :: is =>
    match pyGet texts i with
    | Except.error e => Except.error e
    | Except.ok x =>
      match pyListComp texts is with
      | Except.error e => Except.error e
      | Except.ok rest => Except.ok (x :: rest)

/-- Models `urllib.parse.urljoin("http://www.taipeimarathon.org.tw/contest.aspx", href)`
for the plain relative paths occurring on the site. -/
def urljoin_base (href : String) : String :=
  "http://www.taipeimarathon.org.tw/" ++ href

/-- Models Python `href.startswith("http")`. -/
def pyStartsWith (s pre : String) : Bool :=
  pre.toList.isPrefixOf s.toList

/-- Event-link resolution (src/scraper.py lines 199-208): first anchor of
the event-name cell, absolute links kept, relative ones joined to the base
URL, empty string when no anchor. -/
def resolve_event_href : Option String → String
  | none => ""
  | some href => if pyStartsWith href "http" then href else urljoin_base href

/-- Texts of the `td` cells of a row (`row.find_all("td")` followed by
`get_text(separator=" ", strip=True)`). -/
def tdTexts (r : TRow) : List String :=
  (r.cells.filter (fun c => !c.isTh)).map Cell.text

/-- The data-row loop of `parse_table_to_df` (src/scraper.py lines
185-208): skip rows without `td` cells or with all-blank texts, keep the
texts at the valid header indices, and record the event-name cell's
resolved link.  Index errors propagate as in Python. -/
def processRows (vidx : List Nat) (event_pos : Nat) :
    List TRow → Except PyErr (List (List String) × List String)
  | [] => Except.ok ([], [])
  | row :: rest =>
    let cells := row.cells.filter (fun c => !c.isTh)
    if cells.isEmpty then processRows vidx event_pos rest
    else
      let texts := cells.map Cell.text
      if texts.all (fun s => s = "") then processRows vidx event_pos rest
      else
        match pyListComp texts vidx with
        | Except.error e => Except.error e
        | Except.ok filtered =>
          match pyGetNat vidx event_pos with
          | Except.error e => Except.error e
          | Except.ok ev_i =>
            match pyGetCell cells ev_i with
            | Except.error e => Except.error e
            | Except.ok td_event =>
              match processRows vidx event_pos rest with
              | Except.error e => Except.error e
              | Except.ok (dataRest, linksRest) =>
                Except.ok (filtered :: dataRest,
                  resolve_event_href td_event.href :: linksRest)

/-! ## Percent-encoding and map links -/

/-- UTF-8 encoding of one code point, as byte values. -/
def utf8Bytes (c : Char) : List Nat :=
  let n := c.toNat
  if n < 0x80 then [n]
  else if n < 0x800 then [0xC0 + n / 0x40, 0x80 + n % 0x40]
  else if n < 0x10000 then
    [0xE0 + n / 0x1000, 0x80 + (n / 0x40) % 0x40, 0x80 + n % 0x40]
  else
    [0xF0 + n / 0x40000, 0x80 + (n / 0x1000) % 0x40, 0x80 + (n / 0x40) % 0x40,
     0x80 + n % 0x40]

/-- Uppercase hexadecimal digit. -/
def hexDigitU (n : Nat) : Char :=
  if n < 10 then Char.ofNat ('0'.toNat + n) else Char.ofNat ('A'.toNat + n - 10)

/-- Bytes `urllib.parse.quote` leaves unescaped: ASCII alphanumerics,
`_`, `.`, `-`, `~` and the default safe character `/`. -/
def isQuoteSafe (b : Nat) : Bool :=
  (0x41 ≤ b && b ≤ 0x5A) || (0x61 ≤ b && b ≤ 0x7A) || (0x30 ≤ b && b ≤ 0x39) ||
  b = 0x5F || b = 0x2E || b = 0x2D || b = 0x7E || b = 0x2F

/-- Models `urllib.parse.quote(s)`: UTF-8 encode, keep safe bytes, percent
escape the rest with uppercase hex. -/
def pyQuote (s : String) : String :=
  ((s.toList.flatMap utf8Bytes).flatMap (fun b =>
    if isQuoteSafe b then [Char.ofNat b]
    else ['%', hexDigitU (b / 16), hexDigitU (b % 16)])).asString

/-- `make_maps_link` (src/scraper.py lines 237-239). -/
def make_maps_link (addr : String) : String :=
  "https://www.google.com/maps/search/?api=1&query=" ++ pyQuote addr

/-- `make_maps_embed` (src/scraper.py lines 241-243). -/
def make_maps_embed (addr : String) : String :=
  "https://maps.google.com/maps?q=" ++ pyQuote addr ++ "&output=embed"

/-! ## The extracted DataFrame -/

/-- The pandas DataFrame built by `parse_table_to_df`: the kept header
labels, the kept cell texts of each data row, and the derived columns
`賽事連結`, `parsed_date`, `地點連結`, `地點嵌入URL`. -/
structure DataFrame where
  headers : List String
  data : List (List String)
  eventLinks : List String
  parsedDates : List (Option PDate)
  mapLinks : List String
  embedLinks : List String
deriving DecidableEq, Repr

/-- `pd.DataFrame()`: the empty frame. -/
def DataFrame.empty : DataFrame := ⟨[], [], [], [], [], []⟩

/-- `row.get(label, "")` on a pandas row: the value at the first position
of `label` among the columns, defaulting to the empty string (faithful
when column labels are distinct, as on the scraped table). -/
def dfRowGet (headers : List String) (r : List String) (label : String) : String :=
  match headers.findIdx? (fun h => h = label) with
  | some i => r.getD i ""
  | none => ""

/-- Embedding of `parse_table_to_df` (src/scraper.py lines 160-252),
parameterised by `nowYear = datetime.now().year`.  Missing table or
missing event-name header yield `pd.DataFrame()`; a located table without
any `tr` makes `table.find("tr")` return `None` and the subsequent
`find_all` raise `AttributeError`; row processing can raise `IndexError`
as in `processRows`. -/
def parse_table_to_df (nowYear : Nat) (page : Page) : Except PyErr DataFrame :=
  match locateTable page with
  | none => Except.ok DataFrame.empty
  | some table =>
    match table.rows with
    | [] => Except.error PyErr.attributeError
    | headerRow :: dataRows =>
      let raw_headers := headerRow.cells.map Cell.text
      let vidx := valid_indices_from 0 raw_headers
      let headers := vidx.map (fun i => raw_headers.getD i "")
      if "賽事名稱" ∉ headers then Except.ok DataFrame.empty
      else
        let event_idx := headers.findIdx (fun h => h = "賽事名稱")
        match processRows vidx event_idx dataRows with
        | Except.error e => Except.error e
        | Except.ok (data, event_links) =>
          let parsed_dates := data.map (fun r =>
            parse_event_date nowYear (dfRowGet headers r "賽事名稱")
              (dfRowGet headers r "日期"))
          let mapLinks :=
            if "地點" ∈ headers then
              data.map (fun r => make_maps_link (dfRowGet headers r "地點"))
            else List.replicate data.length ""
          let embedLinks :=
            if "地點" ∈ headers then
              data.map (fun r => make_maps_embed (dfRowGet headers r "地點"))
            else List.replicate data.length ""
          Except.ok ⟨headers, data, event_links, parsed_dates, mapLinks, embedLinks⟩

/-! ## Form navigator (`get_filtered_soup`, src/scraper.py lines 54-154) -/

/-- The default (pre-selected) option values of the three dropdowns, plus
their submission names, as read from the initial page. -/
structure FormDefaults where
  year_name : String
  region_name : String
  type_name : String
  default_year_val : String
  default_region_val : String
  default_type_val : String
deriving DecidableEq, Repr

/-- One HTTP request of the navigator: the initial `GET`, or a postback
`POST` carrying the `__EVENTTARGET` control name and the three submitted
dropdown values (the replayed hidden fields are server-opaque and not
modelled). -/
inductive Request where
  | get : Request
  | post (target yearVal regionVal typeVal : String) : Request
deriving DecidableEq, Repr

/-- Whether a request is the initial `GET`. -/
def isGet : Request → Bool
  | Request.get => true
  | _ => false

/-- The request trace of `get_filtered_soup` on the success path
(src/scraper.py lines 54-154): one `GET`, then the conditional year,
region and type postbacks of lines 125-152, in that order, with the
values each one submits. -/
def get_filtered_soup (fd : FormDefaults) (year region rtype : String) :
    List Request :=
  let yearReqs :=
    if year ∉ (["now", "all"] : List String) then
      [Request.post fd.year_name year fd.default_region_val fd.default_type_val]
    else []
  let selected_region_val := if region ≠ "all" then region else fd.default_region_val
  let regionReqs :=
    if selected_region_val ∉ ([("all" : String), fd.default_region_val] : List String) then
      [Request.post fd.region_name
        (if year ∉ (["now", "all"] : List String) then year else fd.default_year_val)
        selected_region_val fd.default_type_val]
    else []
  let selected_type_val := if rtype ≠ "all" then rtype else fd.default_type_val
  let typeReqs :=
    if selected_type_val ∉ ([("all" : String), fd.default_type_val] : List String) then
      [Request.post fd.type_name
        (if year ∉ (["now", "all"] : List String) then year else fd.default_year_val)
        selected_region_val selected_type_val]
    else []
  Request.get :: (yearReqs ++ regionReqs ++ typeReqs)

/-! ## Keyword filter (src/scraper.py lines 319-321)

`df.apply(lambda r: r.astype(str).str.contains(keyword).any(), axis=1)`
keeps a row when `re.search(keyword, cell)` succeeds for some column text:
pandas `str.contains` treats the keyword as a regular expression by
default.  The regex engine is modelled for patterns built from literal
characters and `.` (any character except newline), which is faithful to
Python `re` on keywords free of the other metacharacters. -/

/-- A compiled token of the modelled regex subset. -/
inductive RegexTok where
  | lit (c : Char)
  | dot
deriving DecidableEq, Repr

/-- Compile a keyword as Python `re` reads it, for the modelled subset:
`.` is the any-character wildcard, everything else a literal. -/
def compileKeyword (kw : List Char) : List RegexTok :=
  kw.map (fun c => if c = '.' then RegexTok.dot else RegexTok.lit c)

/-- Does one token match one character (Python `.` does not match a
newline)? -/
def tokMatches : RegexTok → Char → Bool
  | RegexTok.dot, d => d ≠ '\n'
  | RegexTok.lit c, d => c = d

/-- Match the whole pattern at the start of the text. -/
def matchHere : List RegexTok → List Char → Bool
  | [], _ => true
  | _ :: _, [] => false
  | t :: ts, c :: cs => tokMatches t c && matchHere ts cs

/-- `re.search`: match the pattern at some position of the text. -/
def reSearchAux (pat : List RegexTok) : List Char → Bool
  | [] => matchHere pat []
  | c :: rest => matchHere pat (c :: rest) || reSearchAux pat rest

/-- `re.search(kw, s) is not None`, i.e. pandas
`Series.str.contains(kw)` on one cell, for the modelled regex subset. -/
def str_contains_regex (kw s : String) : Bool :=
  reSearchAux (compileKeyword kw.toList) s.toList

/-- The keyword filter of the `st.button` block (src/scraper.py lines
319-321), over the text representations of a row's columns: keep the rows
where some column matches. -/
def keyword_filter (kw : String) (rows : List (List String)) : List (List String) :=
  rows.filter (fun r => r.any (fun s => str_contains_regex kw s))

/-! ## Download filename (src/scraper.py lines 458-465) -/

/-- Python `"sep".join(parts)`. -/
def pyJoin (sep : String) : List String → String
  | [] => ""
  | [x] => x
  | x :: y :: rest => x ++ sep ++ pyJoin sep (y :: rest)

/-- Models Python `str.replace(" ", "_")`: with a one-character pattern,
every space character is replaced by an underscore. -/
def pyReplaceSpace (s : String) : String :=
  (s.toList.map (fun c => if c = ' ' then '_' else c)).asString

/-- The download filename (src/scraper.py lines 458-465): year (or
`allYears`), region and type joined by underscores, with the stripped
keyword (spaces replaced by underscores) appended when non-empty. -/
def pdf_filename (year_sel region_sel type_sel keyword : String) : String :=
  let fn_year := if year_sel ∉ (["now", "all"] : List String) then year_sel else "allYears"
  let fn_keyword := if pyStrip keyword ≠ "" then pyReplaceSpace (pyStrip keyword) else ""
  let filename_parts :=
    [fn_year, region_sel, type_sel] ++ (if fn_keyword ≠ "" then [fn_keyword] else [])
  pyJoin "_" filename_parts ++ ".pdf"

/-! ## Specification-side definitions

These restate parts of the specification in its own words, to be compared
with the embedded code. -/

/-- Spec-side: keep the entries of `texts` standing at the positions whose
header label is non-blank. -/
def keptByLabel (raw texts : List String) : List String :=
  (raw.zip texts).filterMap (fun p => if pyStrip p.1 ≠ "" then some p.2 else none)

/-- The raw header labels of a table: the texts of all cells of its first
row. -/
def rawHeaders (t : HtmlTable) : List String :=
  (t.rows.headD ⟨[]⟩).cells.map Cell.text

/-- Spec-side case-sensitive substring test: does `kw` occur contiguously
in `s`?  (Prefix check at each suffix.) -/
def substrAt : List Char → List Char → Bool
  | [], _ => true
  | _ :: _, [] => false
  | c :: cs, d :: ds => c = d && substrAt cs ds

/-- Spec-side substring search over all suffixes. -/
def containsSubAux (kw : List Char) : List Char → Bool
  | [] => substrAt kw []
  | c :: rest => substrAt kw (c :: rest) || containsSubAux kw rest

/-- Spec-side: `kw` is a case-sensitive substring of `s`. -/
def containsSub (kw s : String) : Bool := containsSubAux kw.toList s.toList

/-- Python regex metacharacters; a keyword free of them is read by
`re.search` as a plain literal string. -/
def isRegexMeta (c : Char) : Bool :=
  c = '.' || c = '^' || c = '$' || c = '*' || c = '+' || c = '?' ||
  c = '\x7b' || c = '\x7d' || c = '[' || c = ']' || c = '\\' || c = '|' ||
  c = '(' || c = ')'

/-- The kept header labels of a table, as `parse_table_to_df` computes
them from its first row: the raw labels at the valid (non-blank) indices. -/
def keptHeaders (t : HtmlTable) : List String :=
  (valid_indices_from 0 (rawHeaders t)).map (fun i => (rawHeaders t).getD i "")

/-! ### Concrete pages used as witnesses and counterexamples -/

/-- A GridView results table whose single data row has fewer `td` cells
than the kept header indices require. -/
def c2page : Page :=
  ⟨[⟨true, [⟨[⟨true, "賽事名稱", none⟩, ⟨true, "日期", none⟩]⟩,
            ⟨[⟨false, "x", none⟩]⟩]⟩]⟩

/-- A GridView results table with a blank-labelled middle column. -/
def c5table : HtmlTable :=
  ⟨true, [⟨[⟨true, "賽事名稱", none⟩, ⟨true, "", none⟩, ⟨true, "日期", none⟩]⟩,
          ⟨[⟨false, "A", none⟩, ⟨false, "B", none⟩, ⟨false, "3/10", none⟩]⟩]⟩

/-- A page holding `c5table`. -/
def c5page : Page := ⟨[c5table]⟩

/-- The frame extracted from `c5page` at current year 2026. -/
def c5df : DataFrame :=
  ⟨["賽事名稱", "日期"], [["A", "3/10"]], [""], [some ⟨2026, 3, 10⟩], [""], [""]⟩

/-- A GridView results table with a location column. -/
def c7page : Page :=
  ⟨[⟨true, [⟨[⟨true, "賽事名稱", none⟩, ⟨true, "日期", none⟩, ⟨true, "地點", none⟩]⟩,
            ⟨[⟨false, "2024 X", some "event.aspx?id=1"⟩, ⟨false, "3/10", none⟩,
              ⟨false, "台北市政府", none⟩]⟩]⟩]⟩

/-- The frame extracted from `c7page` at current year 2026. -/
def c7df : DataFrame :=
  ⟨["賽事名稱", "日期", "地點"], [["2024 X", "3/10", "台北市政府"]],
   ["http://www.taipeimarathon.org.tw/event.aspx?id=1"], [some ⟨2024, 3, 10⟩],
   ["https://www.google.com/maps/search/?api=1&query=%E5%8F%B0%E5%8C%97%E5%B8%82%E6%94%BF%E5%BA%9C"],
   ["https://maps.google.com/maps?q=%E5%8F%B0%E5%8C%97%E5%B8%82%E6%94%BF%E5%BA%9C&output=embed"]⟩

/-- A GridView results table with non-blank data rows but no event-name
header label. -/
def c10table : HtmlTable :=
  ⟨true, [⟨[⟨true, "日期", none⟩, ⟨true, "地點", none⟩]⟩,
          ⟨[⟨false, "3/10", none⟩, ⟨false, "X", none⟩]⟩]⟩

/-- A page holding `c10table`. -/
def c10page : Page := ⟨[c10table]⟩

/-! ## Theorems -/

/-- February never has 30 days, whatever the year. -/
lemma isValidDate_feb30 (y : Nat) : isValidDate y 2 30 = false := by
  cases h : isLeap y <;> simp [isValidDate, daysInMonth, h]

/-- March 10 is a valid date for every year Python `datetime` accepts. -/
lemma isValidDate_mar10 {y : Nat} (h1 : 1 ≤ y) (h9 : y ≤ 9999) :
    isValidDate y 3 10 = true := by
  simp [isValidDate, daysInMonth]
  omega

/-- C4: date derivation on the three specified examples: a 4-digit year
prefix in the event name fixes the year; an invalid day (February 30)
yields null; a missing year prefix falls back to the current calendar
year. -/
theorem c4_parse_event_date_examples :
    (∀ nowYear : Nat,
      parse_event_date nowYear "2024 台北馬拉松" "12/15" = some ⟨2024, 12, 15⟩)
    ∧ (∀ (nowYear : Nat) (name : String), parse_event_date nowYear name "2/30" = none)
    ∧ (∀ (nowYear : Nat) (name : String), 1 ≤ nowYear → nowYear ≤ 9999 →
        matchLeadingYear name = none →
        parse_event_date nowYear name "3/10" = some ⟨nowYear, 3, 10⟩) := by
  refine ⟨fun _ => rfl, ?_, ?_⟩
  · intro y name
    simp only [parse_event_date]
    rw [show matchMonthDay "2/30".toList = some (2, 30) from rfl]
    simp [isValidDate_feb30]
  · intro y name h1 h9 hnone
    simp only [parse_event_date, hnone, Option.getD_none]
    rw [show matchMonthDay "3/10".toList = some (3, 10) from rfl]
    simp [isValidDate_mar10 h1 h9]

/-- C4 witness: the three examples at the concrete current year 2026 and
the concrete year-free event name `"台北馬拉松"`. -/
theorem c4_parse_event_date_examples_witness :
    parse_event_date 2026 "2024 台北馬拉松" "12/15" = some ⟨2024, 12, 15⟩ ∧
    parse_event_date 2026 "台北馬拉松" "2/30" = none ∧
    parse_event_date 2026 "台北馬拉松" "3/10" = some ⟨2026, 3, 10⟩ :=
  ⟨c4_parse_event_date_examples.1 2026,
   c4_parse_event_date_examples.2.1 2026 "台北馬拉松",
   c4_parse_event_date_examples.2.2 2026 "台北馬拉松" (by decide) (by decide) (by decide)⟩

/-- C3 counterexample: for the event name `"台北馬拉松"` the year cannot
be inferred, yet with date cell `"3/10"` the derived date is not null —
the code falls back to the current year instead of degrading to null. -/
theorem c3_null_on_missing_year_counterexample :
    matchLeadingYear "台北馬拉松" = none ∧
    parse_event_date 2026 "台北馬拉松" "3/10" = some ⟨2026, 3, 10⟩ :=
  ⟨rfl, rfl⟩

/-- C3 amended: the derived date is null exactly when the day/month
fragment does not parse or the combined calendar date is invalid; a
missing year prefix does not produce null but falls back to the current
calendar year; derivation is a total function (never throws). -/
theorem c3_parsed_date_null_amended :
    ∀ (nowYear : Nat) (name date_str : String),
      (parse_event_date nowYear name date_str = none ↔
        matchMonthDay date_str.toList = none ∨
        ∃ m d, matchMonthDay date_str.toList = some (m, d) ∧
          isValidDate ((matchLeadingYear name).getD nowYear) m d = false)
      ∧ (∀ m d, matchLeadingYear name = none →
          matchMonthDay date_str.toList = some (m, d) →
          isValidDate nowYear m d = true →
          parse_event_date nowYear name date_str = some ⟨nowYear, m, d⟩) := by
  intro y name ds
  constructor
  · simp only [parse_event_date]
    cases hm : matchMonthDay ds.toList with
    | none => simp
    | some md =>
      obtain ⟨m, d⟩ := md
      have hshow :
          (match some (m, d) with
            | none => none
            | some (m, d) =>
              if isValidDate ((matchLeadingYear name).getD y) m d = true then
                some (⟨(matchLeadingYear name).getD y, m, d⟩ : PDate)
              else none) =
            (if isValidDate ((matchLeadingYear name).getD y) m d = true then
              some (⟨(matchLeadingYear name).getD y, m, d⟩ : PDate)
            else none) := rfl
      rw [hshow]
      cases hv : isValidDate ((matchLeadingYear name).getD y) m d with
      | false =>
        simp only [Bool.false_eq_true, if_false]
        constructor
        · intro _; exact Or.inr ⟨m, d, rfl, hv⟩
        · intro _; trivial
      | true =>
        simp only [if_true]
        constructor
        · intro hcontra; cases hcontra
        · rintro (h0 | ⟨m', d', heq, hv'⟩)
          · cases h0
          · obtain ⟨rfl, rfl⟩ : m = m' ∧ d = d' := by
              injection heq with h2
              exact ⟨congrArg Prod.fst h2, congrArg Prod.snd h2⟩
            rw [hv] at hv'
            cases hv'
  · intro m d hnone hm hv
    simp only [parse_event_date, hnone, Option.getD_none]
    rw [hm]
    simp [hv]

/-- C3 amended witness: the invalid date 2/30 yields null, and the
fallback clause applied at current year 2026. -/
theorem c3_parsed_date_null_amended_witness :
    parse_event_date 2026 "台南古都馬拉松" "3/10" = some ⟨2026, 3, 10⟩ :=
  (c3_parsed_date_null_amended 2026 "台南古都馬拉松" "3/10").2 3 10
    (by decide) (by decide) (by decide)

/-- A non-empty character list makes a non-empty string. -/
lemma asString_ne_empty {l : List Char} (h : l ≠ []) : l.asString ≠ "" := by
  intro hc
  apply h
  have h2 : (l.asString).data = ("" : String).data := congrArg String.data hc
  exact h2

/-- A string is non-empty iff its character list is. -/
lemma toList_ne_nil_of_ne_empty {s : String} (h : s ≠ "") : s.toList ≠ [] := by
  intro hc
  apply h
  have h2 : s.data = ("" : String).data := hc
  cases s
  cases h2
  rfl

/-- Replacing spaces by underscores keeps a string non-empty. -/
lemma pyReplaceSpace_ne_empty {s : String} (h : s ≠ "") : pyReplaceSpace s ≠ "" := by
  apply asString_ne_empty
  rw [Ne, List.map_eq_nil_iff]
  exact toList_ne_nil_of_ne_empty h

/-- C9: the download filename is the year (or `allYears` for `all`/`now`),
the region and the type joined by underscores, with the stripped keyword
(spaces replaced by underscores) appended exactly when it is non-empty,
followed by the `.pdf` extension; in particular the concrete example of
the specification. -/
theorem c9_pdf_filename_format :
    (∀ year_sel region_sel type_sel keyword : String,
      pdf_filename year_sel region_sel type_sel keyword =
        (if year_sel = "all" ∨ year_sel = "now" then "allYears" else year_sel) ++ "_" ++
          region_sel ++ "_" ++ type_sel ++
          (if pyStrip keyword ≠ "" then "_" ++ pyReplaceSpace (pyStrip keyword) else "") ++
          ".pdf")
    ∧ pdf_filename "2024" "北" "2" "路跑 開放" = "2024_北_2_路跑_開放.pdf" := by
  constructor
  · intro y r t k
    have hmem : (y ∈ (["now", "all"] : List String)) ↔ (y = "all" ∨ y = "now") := by
      simp [or_comm]
    by_cases hall : y = "all" ∨ y = "now"
    · have h1 : (if y ∉ (["now", "all"] : List String) then y else "allYears") = "allYears" :=
        if_neg (not_not_intro (hmem.mpr hall))
      by_cases hk : pyStrip k = ""
      · have h2 : (if pyStrip k ≠ "" then pyReplaceSpace (pyStrip k) else "") = "" :=
          if_neg (not_not_intro hk)
        simp only [pdf_filename]
        rw [h1, h2, if_pos hall, if_neg (not_not_intro hk),
          if_neg (not_not_intro (rfl : ("" : String) = ""))]
        simp [pyJoin, String.append_assoc]
      · have h2 : (if pyStrip k ≠ "" then pyReplaceSpace (pyStrip k) else "") =
            pyReplaceSpace (pyStrip k) := if_pos hk
        have hne := pyReplaceSpace_ne_empty hk
        simp only [pdf_filename]
        rw [h1, h2, if_pos hall, if_pos (hk : pyStrip k ≠ ""), if_pos hne]
        simp [pyJoin, String.append_assoc]
    · have h1 : (if y ∉ (["now", "all"] : List String) then y else "allYears") = y :=
        if_pos (fun hc => hall (hmem.mp hc))
      by_cases hk : pyStrip k = ""
      · have h2 : (if pyStrip k ≠ "" then pyReplaceSpace (pyStrip k) else "") = "" :=
          if_neg (not_not_intro hk)
        simp only [pdf_filename]
        rw [h1, h2, if_neg hall, if_neg (not_not_intro hk),
          if_neg (not_not_intro (rfl : ("" : String) = ""))]
        simp [pyJoin, String.append_assoc]
      · have h2 : (if pyStrip k ≠ "" then pyReplaceSpace (pyStrip k) else "") =
            pyReplaceSpace (pyStrip k) := if_pos hk
        have hne := pyReplaceSpace_ne_empty hk
        simp only [pdf_filename]
        rw [h1, h2, if_neg hall, if_pos (hk : pyStrip k ≠ ""), if_pos hne]
        simp [pyJoin, String.append_assoc]
  · rfl

/-- On a metacharacter-free pattern, anchored regex matching coincides
with the prefix check. -/
lemma matchHere_eq_substrAt (kw : List Char) (h : ∀ c ∈ kw, isRegexMeta c = false) :
    ∀ cs : List Char, matchHere (compileKeyword kw) cs = substrAt kw cs := by
  induction kw with
  | nil => intro cs; rfl
  | cons c rest ih =>
    intro cs
    have hc : isRegexMeta c = false := h c (List.mem_cons_self c rest)
    have hcdot : ¬(c = '.') := by
      intro hcd
      rw [hcd] at hc
      simp [isRegexMeta] at hc
    have hrest : ∀ x ∈ rest, isRegexMeta x = false :=
      fun x hx => h x (List.mem_cons_of_mem c hx)
    cases cs with
    | nil => rfl
    | cons d ds =>
      have e1 : matchHere (compileKeyword (c :: rest)) (d :: ds) =
          (tokMatches (if c = '.' then RegexTok.dot else RegexTok.lit c) d &&
            matchHere (compileKeyword rest) ds) := rfl
      rw [e1, if_neg hcdot, ih hrest ds]
      rfl

/-- On a metacharacter-free pattern, regex search coincides with the
substring search. -/
lemma reSearchAux_eq_containsSubAux (kw : List Char)
    (h : ∀ c ∈ kw, isRegexMeta c = false) :
    ∀ s : List Char, reSearchAux (compileKeyword kw) s = containsSubAux kw s := by
  intro s
  induction s with
  | nil => simp [reSearchAux, containsSubAux, matchHere_eq_substrAt kw h]
  | cons c rest ih =>
    simp [reSearchAux, containsSubAux, matchHere_eq_substrAt kw h, ih]

/-- C6 counterexample: the keyword `"."` is read as a regular expression,
so the filter keeps the row `["ab"]` although `"."` is not a substring of
`"ab"` — the claimed substring semantics does not hold for every keyword. -/
theorem c6_keyword_regex_counterexample :
    keyword_filter "." [["ab"]] = [["ab"]] ∧ containsSub "." "ab" = false :=
  ⟨rfl, rfl⟩

/-- C6 amended: the keyword is interpreted as a regular expression by
pandas `str.contains`; for every non-empty keyword free of regex
metacharacters, the filter retains exactly the rows in which some
column's text contains the keyword as a case-sensitive substring. -/
theorem c6_keyword_filter_amended (kw : String) (rows : List (List String))
    (hne : kw ≠ "") (hmeta : ∀ c ∈ kw.toList, isRegexMeta c = false) :
    keyword_filter kw rows =
      rows.filter (fun r => r.any (fun s => containsSub kw s)) := by
  have hfun : ∀ s : String, str_contains_regex kw s = containsSub kw s := fun s =>
    reSearchAux_eq_containsSubAux kw.toList hmeta s.toList
  exact congrArg (fun p => List.filter p rows)
    (funext fun r => congrArg (List.any r) (funext fun s => hfun s))

/-- C6 amended witness: the filter with the metacharacter-free keyword
`"台南"` applied to a concrete record set. -/
theorem c6_keyword_filter_amended_witness :
    ("台南" : String) ≠ "" ∧
    keyword_filter "台南" [["a", "x台南y"], ["b", "c"]] =
      List.filter (fun r => r.any (fun s => containsSub "台南" s))
        [["a", "x台南y"], ["b", "c"]] :=
  ⟨by decide, c6_keyword_filter_amended "台南" [["a", "x台南y"], ["b", "c"]]
    (by decide) (by decide)⟩

/-- C1: on the success path, `get_filtered_soup` issues exactly one GET,
first, followed by at most three POSTs in year → region → type order; the
year POST is issued iff the year is neither `all` nor `now` and submits
the chosen year with the default region and type values; the region POST
is issued iff the resolved region value differs from both `all` and the
default region value; the type POST is issued iff the resolved type value
differs from both `all` and the default type value, and submits the year
and region already resolved. -/
theorem c1_resolve_request_sequence (fd : FormDefaults) (year region rtype : String) :
    get_filtered_soup fd year region rtype =
      Request.get ::
        ((if year ≠ "all" ∧ year ≠ "now" then
            [Request.post fd.year_name year fd.default_region_val fd.default_type_val]
          else []) ++
         ((if (if region = "all" then fd.default_region_val else region) ≠ "all" ∧
              (if region = "all" then fd.default_region_val else region) ≠
                fd.default_region_val then
            [Request.post fd.region_name
              (if year ≠ "all" ∧ year ≠ "now" then year else fd.default_year_val)
              (if region = "all" then fd.default_region_val else region)
              fd.default_type_val]
          else []) ++
          (if (if rtype = "all" then fd.default_type_val else rtype) ≠ "all" ∧
              (if rtype = "all" then fd.default_type_val else rtype) ≠
                fd.default_type_val then
            [Request.post fd.type_name
              (if year ≠ "all" ∧ year ≠ "now" then year else fd.default_year_val)
              (if region = "all" then fd.default_region_val else region)
              (if rtype = "all" then fd.default_type_val else rtype)]
          else [])))
    ∧ (get_filtered_soup fd year region rtype).countP isGet = 1
    ∧ (get_filtered_soup fd year region rtype).length ≤ 4 := by
  have hyear : (year ∉ (["now", "all"] : List String)) = (year ≠ "all" ∧ year ≠ "now") := by
    simp [or_comm, not_or]
  have hregion : (if region ≠ "all" then region else fd.default_region_val) =
      (if region = "all" then fd.default_region_val else region) := by
    rw [ite_not]
  have hrtype : (if rtype ≠ "all" then rtype else fd.default_type_val) =
      (if rtype = "all" then fd.default_type_val else rtype) := by
    rw [ite_not]
  have hmem2 : ∀ a b c : String, (a ∉ ([b, c] : List String)) = (a ≠ b ∧ a ≠ c) := by
    intro a b c; simp [not_or]
  refine ⟨?_, ?_, ?_⟩
  · simp only [get_filtered_soup, hyear, hregion, hrtype, hmem2]
    rw [List.append_assoc]
  · simp only [get_filtered_soup]
    split_ifs <;>
      simp [isGet, List.countP_cons, List.countP_append, List.countP_nil]
  · simp only [get_filtered_soup]
    split_ifs <;> simp [isGet]

/-- Every valid index is below the index of the first header plus the
number of headers. -/
lemma mem_valid_indices_from_upper :
    ∀ {raw : List String} {k i : Nat},
      i ∈ valid_indices_from k raw → i < k + raw.length := by
  intro raw
  induction raw with
  | nil => intro k i hi; simp [valid_indices_from] at hi
  | cons hd tl ih =>
    intro k i hi
    by_cases hb : pyStrip hd ≠ ""
    · simp only [valid_indices_from, if_pos hb] at hi
      rcases List.mem_cons.mp hi with rfl | hi2
      · simp
      · have := ih hi2
        simp only [List.length_cons]
        omega
    · simp only [valid_indices_from, if_neg hb] at hi
      have := ih hi
      simp only [List.length_cons]
      omega

/-- A successful index comprehension returns the values at the indices,
all of which are in range. -/
lemma pyListComp_ok_inv :
    ∀ (idx : List Nat) (texts res : List String),
      pyListComp texts idx = Except.ok res →
      res = idx.map (fun i => texts.getD i "") ∧ ∀ i ∈ idx, i < texts.length := by
  intro idx
  induction idx with
  | nil =>
    intro texts res h
    simp only [pyListComp] at h
    injection h with h1
    subst h1
    simp
  | cons i is ih =>
    intro texts res h
    simp only [pyListComp] at h
    cases hx : pyGet texts i with
    | error e => rw [hx] at h; cases h
    | ok x =>
      rw [hx] at h
      cases hrest : pyListComp texts is with
      | error e => rw [hrest] at h; cases h
      | ok rest =>
        rw [hrest] at h
        injection h with h1
        subst h1
        have hi : i < texts.length := by
          by_contra hni
          rw [pyGet, dif_neg hni] at hx
          cases hx
        rw [pyGet, dif_pos hi] at hx
        injection hx with hx1
        obtain ⟨hres, hbound⟩ := ih texts rest hrest
        constructor
        · rw [List.map_cons, ← hres, List.getD_eq_getElem texts "" hi, ← hx1]
          rfl
        · intro j hj
          rcases List.mem_cons.mp hj with rfl | hj2
          · exact hi
          · exact hbound j hj2

/-- Selecting the values at the valid indices (all in range) is the same
as keeping, position by position, the entries whose header label is
non-blank. -/
lemma map_getD_valid_eq_keptByLabel :
    ∀ (raw : List String) (k : Nat) (texts : List String),
      (∀ i ∈ valid_indices_from k raw, i < texts.length) →
      (valid_indices_from k raw).map (fun i => texts.getD i "") =
        keptByLabel raw (texts.drop k) := by
  intro raw
  induction raw with
  | nil => intro k texts _; rfl
  | cons hd tl ih =>
    intro k texts hb
    by_cases hblank : pyStrip hd ≠ ""
    · have hmem : k ∈ valid_indices_from k (hd :: tl) := by
        simp [valid_indices_from, if_pos hblank]
      have hklt : k < texts.length := hb k hmem
      have hsub : ∀ i ∈ valid_indices_from (k + 1) tl, i < texts.length := by
        intro i hi
        exact hb i (by simp [valid_indices_from, if_pos hblank, hi])
      rw [show valid_indices_from k (hd :: tl) =
          k :: valid_indices_from (k + 1) tl from by
        simp [valid_indices_from, if_pos hblank]]
      rw [List.map_cons, ih (k + 1) texts hsub, List.drop_eq_getElem_cons hklt]
      have hf : (fun p : String × String =>
          if pyStrip p.1 ≠ "" then some p.2 else none) (hd, texts[k]) =
          some texts[k] := by simp [hblank]
      simp only [keptByLabel, List.zip_cons_cons, List.filterMap_cons, hf]
      rw [List.getD_eq_getElem texts "" hklt]
    · have hvif : valid_indices_from k (hd :: tl) = valid_indices_from (k + 1) tl := by
        simp [valid_indices_from, hblank]
      rw [hvif] at hb
      rw [hvif, ih (k + 1) texts hb]
      have hlab : pyStrip hd = "" := not_not.mp hblank
      by_cases hk : k < texts.length
      · rw [List.drop_eq_getElem_cons hk]
        have hf : (fun p : String × String =>
            if pyStrip p.1 ≠ "" then some p.2 else none) (hd, texts[k]) = none := by
          simp [hlab]
        simp only [keptByLabel, List.zip_cons_cons, List.filterMap_cons, hf]
      · have h1 : texts.drop k = [] := List.drop_eq_nil_of_le (Nat.le_of_not_lt hk)
        have h2 : texts.drop (k + 1) = [] := List.drop_eq_nil_of_le (by omega)
        rw [h1, h2]
        simp [keptByLabel, List.zip_nil_right]

/-- Keeping a list against its own labels is filtering out the blank
labels. -/
lemma keptByLabel_self (raw : List String) :
    keptByLabel raw raw = raw.filter (fun s => pyStrip s ≠ "") := by
  induction raw with
  | nil => rfl
  | cons h t ih =>
    by_cases hb : pyStrip h ≠ ""
    · have hf : (fun p : String × String =>
          if pyStrip p.1 ≠ "" then some p.2 else none) (h, h) = some h := by
        simp [hb]
      simp only [keptByLabel, List.zip_cons_cons, List.filterMap_cons, hf,
        List.filter_cons]
      rw [show (decide (pyStrip h ≠ "")) = true from by simp [hb], if_pos rfl]
      exact congrArg (List.cons h) ih
    · have hf : (fun p : String × String =>
          if pyStrip p.1 ≠ "" then some p.2 else none) (h, h) = none := by
        simp [not_not.mp hb]
      simp only [keptByLabel, List.zip_cons_cons, List.filterMap_cons, hf,
        List.filter_cons]
      rw [show (decide (pyStrip h ≠ "")) = false from by simp [not_not.mp hb]]
      simp only [Bool.false_eq_true, if_false]
      exact ih

/-- The kept headers are exactly the non-blank raw header labels. -/
lemma keptHeaders_eq_filter (t : HtmlTable) :
    keptHeaders t = (rawHeaders t).filter (fun s => pyStrip s ≠ "") := by
  have hb : ∀ i ∈ valid_indices_from 0 (rawHeaders t), i < (rawHeaders t).length := by
    intro i hi
    have := mem_valid_indices_from_upper hi
    omega
  rw [keptHeaders, map_getD_valid_eq_keptByLabel (rawHeaders t) 0 (rawHeaders t) hb,
    List.drop_zero, keptByLabel_self]

/-- Every row of a successful row-processing pass comes from a source row
whose kept-index selection succeeded. -/
lemma processRows_ok_rows (vidx : List Nat) (event_pos : Nat) :
    ∀ (rows : List TRow) (data : List (List String)) (links : List String),
      processRows vidx event_pos rows = Except.ok (data, links) →
      ∀ orow ∈ data, ∃ r ∈ rows, pyListComp (tdTexts r) vidx = Except.ok orow := by
  intro rows
  induction rows with
  | nil =>
    intro data links h orow hmem
    simp only [processRows] at h
    injection h with h1
    rw [show data = ([] : List (List String)) from (congrArg Prod.fst h1).symm] at hmem
    cases hmem
  | cons row rest ih =>
    intro data links h orow hmem
    simp only [processRows] at h
    split at h
    · obtain ⟨r, hr, hcomp⟩ := ih data links h orow hmem
      exact ⟨r, List.mem_cons_of_mem _ hr, hcomp⟩
    · split at h
      · obtain ⟨r, hr, hcomp⟩ := ih data links h orow hmem
        exact ⟨r, List.mem_cons_of_mem _ hr, hcomp⟩
      · split at h
        · cases h
        next filtered heq =>
          split at h
          · cases h
          next ev_i heq2 =>
            split at h
            · cases h
            next td heq3 =>
              split at h
              · cases h
              next dataRest linksRest heq4 =>
                injection h with h1
                have hdata : data = filtered :: dataRest := (congrArg Prod.fst h1).symm
                rw [hdata] at hmem
                rcases List.mem_cons.mp hmem with rfl | hmem2
                · exact ⟨row, List.mem_cons_self row rest, heq⟩
                · obtain ⟨r, hr, hcomp⟩ := ih dataRest linksRest heq4 orow hmem2
                  exact ⟨r, List.mem_cons_of_mem _ hr, hcomp⟩

/-- If no table carries the GridView id and none has both required `th`
labels, table location fails. -/
lemma locateTable_eq_none (p : Page)
    (h : ∀ t ∈ p.tables, ¬ t.hasGridId ∧
      ("賽事名稱" ∉ thTexts t ∨ "日期" ∉ thTexts t)) :
    locateTable p = none := by
  rw [locateTable]
  have h1 : p.tables.find? (fun t => t.hasGridId) = none := by
    rw [List.find?_eq_none]
    intro t ht
    simpa using (h t ht).1
  rw [h1]
  rw [List.find?_eq_none]
  intro t ht
  have h2 := (h t ht).2
  simp only [decide_eq_true_eq]
  tauto

/-- Inversion of a successful parse on a located table with at least one
row: either the event-name label is missing from the kept headers and the
frame is empty, or row processing succeeded and the frame is built from
its output. -/
lemma parse_ok_located (nowYear : Nat) (page : Page) (t : HtmlTable) (hr : TRow)
    (dataRows : List TRow) (df : DataFrame)
    (hloc : locateTable page = some t) (hrows : t.rows = hr :: dataRows)
    (hok : parse_table_to_df nowYear page = Except.ok df) :
    ("賽事名稱" ∉ keptHeaders t ∧ df = DataFrame.empty) ∨
    ("賽事名稱" ∈ keptHeaders t ∧ ∃ data links,
      processRows (valid_indices_from 0 (rawHeaders t))
          ((keptHeaders t).findIdx (fun s => s = "賽事名稱")) dataRows =
        Except.ok (data, links) ∧
      df = ⟨keptHeaders t, data, links,
        data.map (fun r => parse_event_date nowYear
          (dfRowGet (keptHeaders t) r "賽事名稱") (dfRowGet (keptHeaders t) r "日期")),
        (if "地點" ∈ keptHeaders t then
          data.map (fun r => make_maps_link (dfRowGet (keptHeaders t) r "地點"))
        else List.replicate data.length ""),
        (if "地點" ∈ keptHeaders t then
          data.map (fun r => make_maps_embed (dfRowGet (keptHeaders t) r "地點"))
        else List.replicate data.length "")⟩) := by
  have hraw : hr.cells.map Cell.text = rawHeaders t := by
    rw [rawHeaders, hrows]
    rfl
  simp only [parse_table_to_df, hloc, hrows] at hok
  rw [hraw] at hok
  rw [show (valid_indices_from 0 (rawHeaders t)).map
      (fun i => (rawHeaders t).getD i "") = keptHeaders t from rfl] at hok
  by_cases hmem : "賽事名稱" ∈ keptHeaders t
  · rw [if_neg (not_not_intro hmem)] at hok
    cases hpr : processRows (valid_indices_from 0 (rawHeaders t))
        ((keptHeaders t).findIdx (fun s => s = "賽事名稱")) dataRows with
    | error e => rw [hpr] at hok; cases hok
    | ok p =>
      obtain ⟨data, links⟩ := p
      rw [hpr] at hok
      injection hok with h1
      exact Or.inr ⟨hmem, data, links, rfl, h1.symm⟩
  · rw [if_pos hmem] at hok
    injection hok with h1
    exact Or.inl ⟨hmem, h1.symm⟩

/-- C2 counterexample: `parse_table_to_df` is not total — on a page whose
results table has a data row with fewer `td` cells than the kept header
indices require, the comprehension `[texts[i] for i in valid_indices]`
raises `IndexError`. -/
theorem c2_extract_raises_counterexample :
    parse_table_to_df 2026 c2page = Except.error PyErr.indexError := rfl

/-- C2 amended: extraction degrades to an empty record set, without
raising, on every page with no table at all and on every page none of
whose tables is the GridView results table or carries both the event-name
and date header labels; however, extraction is not exception-free on
every table shape (see the counterexample). -/
theorem c2_extract_degrades (page : Page) (nowYear : Nat)
    (h : ∀ t ∈ page.tables, ¬ t.hasGridId ∧
      ("賽事名稱" ∉ thTexts t ∨ "日期" ∉ thTexts t)) :
    parse_table_to_df nowYear page = Except.ok DataFrame.empty := by
  simp only [parse_table_to_df, locateTable_eq_none page h]

/-- C2 amended witness: the completely empty page. -/
theorem c2_extract_degrades_witness :
    (∀ t ∈ (Page.mk []).tables, ¬ t.hasGridId ∧
      ("賽事名稱" ∉ thTexts t ∨ "日期" ∉ thTexts t)) ∧
    parse_table_to_df 2026 (Page.mk []) = Except.ok DataFrame.empty :=
  ⟨by simp, c2_extract_degrades (Page.mk []) 2026 (by simp)⟩

/-- C5: on a successful extraction from a located table whose kept
headers contain the event-name label, blank-labelled columns are dropped
consistently: the returned headers are exactly the non-blank raw header
labels, and every returned data row consists of the source row's cell
texts at exactly the positions of the non-blank header labels. -/
theorem c5_blank_column_alignment (page : Page) (nowYear : Nat) (t : HtmlTable)
    (df : DataFrame) (hloc : locateTable page = some t)
    (hok : parse_table_to_df nowYear page = Except.ok df)
    (hev : "賽事名稱" ∈ (rawHeaders t).filter (fun s => pyStrip s ≠ "")) :
    df.headers = (rawHeaders t).filter (fun s => pyStrip s ≠ "") ∧
    ∀ orow ∈ df.data, ∃ r ∈ t.rows.tail,
      orow = keptByLabel (rawHeaders t) (tdTexts r) := by
  cases hrows : t.rows with
  | nil =>
    exfalso
    simp only [parse_table_to_df, hloc, hrows] at hok
    cases hok
  | cons hr dataRows =>
    have hkept : keptHeaders t = (rawHeaders t).filter (fun s => pyStrip s ≠ "") :=
      keptHeaders_eq_filter t
    rcases parse_ok_located nowYear page t hr dataRows df hloc hrows hok with
      ⟨hnot, _⟩ | ⟨_, data, links, hpr, hdf⟩
    · exact absurd (hkept ▸ hev) hnot
    · constructor
      · rw [hdf]
        exact hkept
      · intro orow hmemrow
        rw [hdf] at hmemrow
        obtain ⟨r, hr2, hcomp⟩ :=
          processRows_ok_rows _ _ dataRows data links hpr orow hmemrow
        obtain ⟨hres, hbound⟩ := pyListComp_ok_inv _ _ _ hcomp
        refine ⟨r, ?_, ?_⟩
        · exact hr2
        · rw [hres,
            map_getD_valid_eq_keptByLabel (rawHeaders t) 0 (tdTexts r) hbound,
            List.drop_zero]

/-- C5 witness: the concrete table with a blank-labelled middle column. -/
theorem c5_blank_column_alignment_witness :
    c5df.headers = (rawHeaders c5table).filter (fun s => pyStrip s ≠ "") ∧
    ∀ orow ∈ c5df.data, ∃ r ∈ c5table.rows.tail,
      orow = keptByLabel (rawHeaders c5table) (tdTexts r) :=
  c5_blank_column_alignment c5page 2026 c5table c5df rfl rfl (by decide)

/-- C7: on every successful extraction, when a location column exists the
map-link column is the fixed search-style Google Maps template followed
by the percent-encoded address of each row, and the embed-link column is
the fixed embed-style template with the same percent-encoding; when no
location column exists, both derived columns hold the empty string in
every row. -/
theorem c7_location_links (page : Page) (nowYear : Nat) (df : DataFrame)
    (hok : parse_table_to_df nowYear page = Except.ok df) :
    (("地點" ∈ df.headers) →
      df.mapLinks = df.data.map (fun r =>
        "https://www.google.com/maps/search/?api=1&query=" ++
          pyQuote (dfRowGet df.headers r "地點")) ∧
      df.embedLinks = df.data.map (fun r =>
        "https://maps.google.com/maps?q=" ++ pyQuote (dfRowGet df.headers r "地點") ++
          "&output=embed")) ∧
    (("地點" ∉ df.headers) →
      (∀ s ∈ df.mapLinks, s = "") ∧ (∀ s ∈ df.embedLinks, s = "")) := by
  cases hloc : locateTable page with
  | none =>
    simp only [parse_table_to_df, hloc] at hok
    injection hok with h1
    rw [← h1]
    constructor
    · intro hmem
      exact absurd hmem (by simp [DataFrame.empty])
    · intro _
      constructor <;> intro s hs <;> exact absurd hs (by simp [DataFrame.empty])
  | some t =>
    cases hrows : t.rows with
    | nil =>
      exfalso
      simp only [parse_table_to_df, hloc, hrows] at hok
      cases hok
    | cons hr dataRows =>
      rcases parse_ok_located nowYear page t hr dataRows df hloc hrows hok with
        ⟨_, hdf⟩ | ⟨_, data, links, _, hdf⟩
      · rw [hdf]
        constructor
        · intro hmem
          exact absurd hmem (by simp [DataFrame.empty])
        · intro _
          constructor <;> intro s hs <;> exact absurd hs (by simp [DataFrame.empty])
      · have hH : df.headers = keptHeaders t := by rw [hdf]
        have hD : df.data = data := by rw [hdf]
        have hM : df.mapLinks =
            (if "地點" ∈ keptHeaders t then
              data.map (fun r => make_maps_link (dfRowGet (keptHeaders t) r "地點"))
            else List.replicate data.length "") := by rw [hdf]
        have hE : df.embedLinks =
            (if "地點" ∈ keptHeaders t then
              data.map (fun r => make_maps_embed (dfRowGet (keptHeaders t) r "地點"))
            else List.replicate data.length "") := by rw [hdf]
        constructor
        · intro hmem
          rw [hH] at hmem
          constructor
          · rw [hM, if_pos hmem, hD, hH]
            rfl
          · rw [hE, if_pos hmem, hD, hH]
            rfl
        · intro hnot
          rw [hH] at hnot
          constructor
          · rw [hM, if_neg hnot]
            intro s hs
            exact List.eq_of_mem_replicate hs
          · rw [hE, if_neg hnot]
            intro s hs
            exact List.eq_of_mem_replicate hs

/-- C7 witness: the concrete table with a location column and the address
`"台北市政府"`. -/
theorem c7_location_links_witness :
    c7df.mapLinks = c7df.data.map (fun r =>
      "https://www.google.com/maps/search/?api=1&query=" ++
        pyQuote (dfRowGet c7df.headers r "地點")) ∧
    c7df.embedLinks = c7df.data.map (fun r =>
      "https://maps.google.com/maps?q=" ++ pyQuote (dfRowGet c7df.headers r "地點") ++
        "&output=embed") :=
  (c7_location_links c7page 2026 c7df rfl).1 (by decide)

/-- C10: when the located table has a header row whose non-blank labels
do not include the event-name label, extraction returns the empty frame,
whatever the data rows contain. -/
theorem c10_missing_event_label (page : Page) (nowYear : Nat) (t : HtmlTable)
    (hr : TRow) (rest : List TRow)
    (hloc : locateTable page = some t) (hrows : t.rows = hr :: rest)
    (hmiss : "賽事名稱" ∉ (rawHeaders t).filter (fun s => pyStrip s ≠ "")) :
    parse_table_to_df nowYear page = Except.ok DataFrame.empty := by
  have hraw : hr.cells.map Cell.text = rawHeaders t := by
    rw [rawHeaders, hrows]
    rfl
  have hkept : keptHeaders t = (rawHeaders t).filter (fun s => pyStrip s ≠ "") :=
    keptHeaders_eq_filter t
  simp only [parse_table_to_df, hloc, hrows]
  rw [hraw]
  rw [show (valid_indices_from 0 (rawHeaders t)).map
      (fun i => (rawHeaders t).getD i "") = keptHeaders t from rfl]
  rw [if_pos (hkept.symm ▸ hmiss)]

/-- C10 witness: a concrete table whose headers are only date and
location, with a non-blank data row. -/
theorem c10_missing_event_label_witness :
    parse_table_to_df 2026 c10page = Except.ok DataFrame.empty :=
  c10_missing_event_label c10page 2026 c10table
    ⟨[⟨true, "日期", none⟩, ⟨true, "地點", none⟩]⟩
    [⟨[⟨false, "3/10", none⟩, ⟨false, "X", none⟩]⟩] rfl rfl (by decide)

end Marathon
